import Mathlib

/-!
Verification of the OneCodePlant plugin subsystem specification against a
shallow embedding of `onecode/plugins/plugin_manager.py` and
`onecode/plugins/plugin_loader.py`.

Python dictionaries (the registry, the loaded-plugin map) are embedded as
association lists `List (String × α)` with first-match lookup; filesystem
and subprocess effects are passed in explicitly as functions, and every
write of the registry file is recorded in an explicit save trace so that
frame conditions ("the failed call left the registry untouched") are
visible in the result type.
-/

namespace OneCode

/-- Python dict entry record for a registry value: each field models one
optional JSON key of the per-plugin metadata dictionaries built by
`plugin_manager.py` (`source`, `package`, `url`, `path`, `original_path`,
`version`, `status`). -/
structure Metadata where
  source : Option String := none
  package : Option String := none
  url : Option String := none
  path : Option String := none
  original_path : Option String := none
  version : Option String := none
  status : Option String := none
deriving Repr, DecidableEq

/-- The plugin registry: a Python dict `name -> metadata`, embedded as an
association list in insertion order. -/
abbrev Registry := List (String × Metadata)

/-- Dict read: first entry with the given key (`registry[name]` /
`registry.get(name)`). -/
def lookup {α : Type} : List (String × α) → String → Option α
  | [], _ => none
  | (k, v) :: rest, name => if k = name then some v else lookup rest name

/-- Dict write: `registry[name] = value` replaces an existing entry in
place or appends a new one. -/
def upsert {α : Type} : List (String × α) → String → α → List (String × α)
  | [], name, v => [(name, v)]
  | (k, w) :: rest, name, v =>
    if k = name then (k, v) :: rest else (k, w) :: upsert rest name v

/-- Dict delete: `del registry[name]` (removes the first entry with the
key; keys are unique in a dict). -/
def eraseKey {α : Type} : List (String × α) → String → List (String × α)
  | [], _ => []
  | (k, w) :: rest, name =>
    if k = name then rest else (k, w) :: eraseKey rest name

/-- Python `s.startswith(t)`: `t` is a prefix of `s`, on the character
lists. -/
def strStarts (s t : String) : Bool := t.data.isPrefixOf s.data

/-- Python `c in s` for a single character. -/
def strContains (s : String) (c : Char) : Bool := s.data.contains c

/-- `pathlib.Path(p).name` on slash-separated paths: the final nonempty,
non-dot component (empty and `.` components are dropped by pathlib). -/
def lastSegment (p : String) : String :=
  ((((p.splitOn "/").filter (fun s => s ≠ "" ∧ s ≠ "."))).getLast?).getD ""

/-- `pathlib.Path(s).stem` of a final component: the component without its
last suffix; a lone leading dot (as in `.git`) does not start a suffix. -/
def pathStem (s : String) : String :=
  let parts := s.splitOn "."
  match parts with
  | [] => s
  | [_] => s
  | first :: _ =>
    if first = "" ∧ parts.length = 2 then s
    else String.intercalate "." (parts.dropLast)

/-- `urllib.parse.urlparse(url).path` for scheme-qualified URLs: the part
after the scheme and the network location; a string without a scheme is
all path. -/
def urlPath (url : String) : String :=
  match url.splitOn "://" with
  | [_, rest] =>
    match rest.splitOn "/" with
    | [] => ""
    | [_] => ""
    | _ :: segs => "/" ++ String.intercalate "/" segs
  | _ => url

namespace PluginManager

/-- `PluginManager.plugins_dir`. -/
def plugins_dir : String := "onecode/plugins"

/-- `PluginManager.registry_file`. -/
def registry_file : String := "onecode/plugin_registry.json"

/-- `PluginManager._detect_source_type`: http(s) URLs are `github`; then a
string containing a slash and not starting with a dot is the GitHub
shorthand `github`; then an existing path is `local`; everything else is
`pypi`. The filesystem is passed in as `pathExists` (`os.path.exists`). -/
def _detect_source_type (pathExists : String → Bool) (source : String) : String :=
  if strStarts source "http://" || strStarts source "https://" then "github"
  else if strContains source '/' && !(strStarts source ".") then "github"
  else if pathExists source then "local"
  else "pypi"

/-- Typed image of the `raise Exception(...)` sites in
`PluginManager.remove`. -/
inductive RemoveError where
  /-- `Plugin is not installed` -/
  | notInstalled (name : String)
  /-- `Removal requires confirmation. Use --yes flag.` -/
  | confirmationRequired
  /-- an exception escaping the teardown block (pip uninstall / rmtree) -/
  | teardownFailed (msg : String)
deriving Repr, DecidableEq

/-- External effects consumed by `PluginManager.remove`: the result of the
`pip uninstall` subprocess, the `Path.exists` check and the
`shutil.rmtree` call. -/
structure RemoveEnv where
  pipUninstall : String → Except String Unit
  pathExists : String → Bool
  rmtree : String → Except String Unit

/-- `PluginManager.remove(name, confirm)`: looks the name up in the
registry (raising `notInstalled` when absent), then demands confirmation,
then tears the plugin down by source kind and only then deletes the entry
and saves.  The second component is the trace of `_save_registry` calls
the invocation performed. -/
def remove (env : RemoveEnv) (registry : Registry) (name : String)
    (confirm : Bool) : Except RemoveError String × List Registry :=
  match lookup registry name with
  | none => (Except.error (RemoveError.notInstalled name), [])
  | some plugin_info =>
    if !confirm then (Except.error RemoveError.confirmationRequired, [])
    else
      let teardown : Except String Unit :=
        if plugin_info.source = some "pypi" then
          match plugin_info.package with
          | some pkg => env.pipUninstall pkg
          | none => Except.error "KeyError: package"
        else
          match plugin_info.path with
          | some p => if env.pathExists p then env.rmtree p else Except.ok ()
          | none => Except.ok ()
      match teardown with
      | Except.error e => (Except.error (RemoveError.teardownFailed e), [])
      | Except.ok _ => (Except.ok name, [eraseKey registry name])

/-- External effects consumed by `PluginManager.install` and its helpers:
`os.path.exists` / `Path.exists`, `Path.resolve`, the `pip install`
subprocess (error carries its stderr), the best-effort `pkg_resources`
version lookup, the `git clone` subprocess and `shutil.copytree`. -/
structure InstallEnv where
  pathExists : String → Bool
  resolve : String → String
  pipInstall : String → Except String Unit
  pipVersion : String → Option String
  gitClone : String → Except String Unit
  copyTree : String → String → Except String Unit
  validate : String → Bool

/-- `PluginManager._install_from_pypi`: runs `pip install`; on failure the
raised message is `PyPI installation failed: <stderr>`; on success the
version is resolved best-effort with fallback `unknown`. -/
def _install_from_pypi (env : InstallEnv) (package_name : String) :
    Except String Metadata :=
  match env.pipInstall package_name with
  | Except.error stderr => Except.error ("PyPI installation failed: " ++ stderr)
  | Except.ok _ =>
    let version := (env.pipVersion package_name).getD "unknown"
    Except.ok { source := some "pypi", package := some package_name,
                version := some version, status := some "installed" }

/-- `PluginManager._install_from_github`: expands the `user/repo`
shorthand to `https://github.com/user/repo.git`, derives the repo name
from the URL path, clones, then copies the clone into
`plugins_dir/<repo>`.  A clone failure raises
`GitHub installation failed: <stderr>`; a copy failure propagates raw
(it is not a `CalledProcessError`). -/
def _install_from_github (env : InstallEnv) (source : String) :
    Except String Metadata :=
  let url := if strStarts source "http://" || strStarts source "https://"
             then source else "https://github.com/" ++ source ++ ".git"
  let repo_name := (pathStem (lastSegment (urlPath url))).replace ".git" ""
  match env.gitClone url with
  | Except.error stderr => Except.error ("GitHub installation failed: " ++ stderr)
  | Except.ok _ =>
    let plugin_path := plugins_dir ++ "/" ++ repo_name
    match env.copyTree repo_name plugin_path with
    | Except.error e => Except.error e
    | Except.ok _ =>
      Except.ok { source := some "github", url := some url,
                  path := some plugin_path, status := some "installed" }

/-- `PluginManager._install_from_local`: resolves the source path, fails
with `Local installation failed: Local path does not exist: <source>`
when it is absent, otherwise copies the tree into
`plugins_dir/<final segment>`; every failure is wrapped with the
`Local installation failed: ` prefix by the enclosing handler. -/
def _install_from_local (env : InstallEnv) (source : String) :
    Except String Metadata :=
  let source_path := env.resolve source
  if !env.pathExists source_path then
    Except.error ("Local installation failed: Local path does not exist: " ++ source)
  else
    let plugin_name := lastSegment source_path
    let plugin_path := plugins_dir ++ "/" ++ plugin_name
    match env.copyTree source_path plugin_path with
    | Except.error e => Except.error ("Local installation failed: " ++ e)
    | Except.ok _ =>
      Except.ok { source := some "local", original_path := some source_path,
                  path := some plugin_path, status := some "installed" }

/-- The plugin-name derivation inlined at the top of
`PluginManager.install`: the package name itself for `pypi`; for `github`
the stem of the URL path's last segment with `.git` stripped (shorthand
first expanded to `https://github.com/<source>` — without the `.git`
suffix at this site); the final path segment for `local`. -/
def derive_plugin_name (source_type source : String) : String :=
  if source_type = "pypi" then source
  else if source_type = "github" then
    let full := if strStarts source "http" then source
                else "https://github.com/" ++ source
    (pathStem (lastSegment (urlPath full))).replace ".git" ""
  else lastSegment source

/-- The name `PluginManager.install` derives for a source string, after
classifying it. -/
def install_name (env : InstallEnv) (source : String) : String :=
  derive_plugin_name (_detect_source_type env.pathExists source) source

/-- Typed image of the failure modes of `PluginManager.install`. -/
inductive InstallError where
  /-- `Plugin is already installed. Use --force to reinstall.` -/
  | alreadyInstalled (name : String)
  /-- a failure raised by the kind-specific acquisition step -/
  | installFailed (msg : String)
deriving Repr, DecidableEq

/-- The success dictionary returned by `PluginManager.install`. -/
structure InstallResult where
  name : String
  source_type : String
  status : String
  metadata : Metadata
deriving Repr, DecidableEq

/-- `PluginManager.install(source, force)`: classifies the source, derives
the plugin name, raises `alreadyInstalled` when the name is registered and
`force` is not set, then performs the kind-specific acquisition
(`_validate_plugin` afterwards only logs a warning and never blocks
registration), and only on success upserts the metadata and saves the
registry.  The second component is the trace of `_save_registry` calls. -/
def install (env : InstallEnv) (registry : Registry) (source : String)
    (force : Bool) : Except InstallError InstallResult × List Registry :=
  let source_type := _detect_source_type env.pathExists source
  let plugin_name := derive_plugin_name source_type source
  if (lookup registry plugin_name).isSome && !force then
    (Except.error (InstallError.alreadyInstalled plugin_name), [])
  else
    let acquired : Except String Metadata :=
      if source_type = "pypi" then _install_from_pypi env source
      else if source_type = "github" then _install_from_github env source
      else _install_from_local env source
    match acquired with
    | Except.error e => (Except.error (InstallError.installFailed e), [])
    | Except.ok metadata =>
      let newRegistry := upsert registry plugin_name metadata
      (Except.ok { name := plugin_name, source_type := source_type,
                   status := "success", metadata := metadata },
       [newRegistry])

/-- State of the registry file as `PluginManager._load_registry` can
observe it: absent (`FileNotFoundError`), present but not valid JSON
(`json.JSONDecodeError`), or parsed content. -/
inductive FileState where
  | absent
  | unparsable
  | parsed (content : Registry)
deriving Repr, DecidableEq

/-- `PluginManager._load_registry`: both `FileNotFoundError` and
`JSONDecodeError` are caught and yield the empty dict. -/
def _load_registry : FileState → Registry
  | FileState.absent => []
  | FileState.unparsable => []
  | FileState.parsed content => content

/-- `PluginManager._ensure_registry` (run in `__init__`): when the
registry file does not exist it writes `{}` to it; otherwise it leaves
the file alone. -/
def _ensure_registry : FileState → FileState
  | FileState.absent => FileState.parsed []
  | fs => fs

/-- Primitive file operations, for the byte-level model of
`_save_registry`. -/
inductive FsOp where
  /-- `open(path, 'w')`: truncates the file to empty -/
  | openTrunc (path : String)
  /-- a write appending serialized data to the open file -/
  | writeData (path : String) (data : String)
  /-- `os.replace` / `Path.rename` -/
  | rename (src : String) (dst : String)
deriving Repr, DecidableEq

/-- The file operations `PluginManager._save_registry` performs:
`open(self.registry_file, 'w')` truncates the registry file in place,
then `json.dump` writes the serialized registry into it.  No temporary
file and no rename are involved. -/
def _save_registry_ops (data : String) : List FsOp :=
  [FsOp.openTrunc registry_file, FsOp.writeData registry_file data]

/-- Effect of one file operation on a filesystem mapping each path to its
content (`none` = no such file). -/
def applyOp (fs : String → Option String) : FsOp → String → Option String
  | FsOp.openTrunc p => fun q => if q = p then some "" else fs q
  | FsOp.writeData p d => fun q => if q = p then some (((fs p).getD "") ++ d) else fs q
  | FsOp.rename src dst => fun q =>
      if q = dst then fs src else if q = src then none else fs q

/-- Effect of a sequence of file operations. -/
def applyOps (fs : String → Option String) (ops : List FsOp) :
    String → Option String :=
  ops.foldl applyOp fs

/-- Modelled from the spec sentence for `save()`: a save sequence never
corrupts when, after any prefix of its operations (an interruption
point), the registry file holds either its old content or the complete
new serialization. -/
def saveNeverCorrupts (data : String) : Prop :=
  ∀ (fs : String → Option String) (k : Nat),
    applyOps fs ((_save_registry_ops data).take k) registry_file = fs registry_file ∨
    applyOps fs ((_save_registry_ops data).take k) registry_file = some data

/-- The per-descriptor body of the loop in
`PluginManager.refresh_registry`: a descriptor with a `path` whose path
does not exist becomes `missing` (and counts as updated, even if it
already was `missing`); one whose path exists and whose status is
`missing` becomes `installed`; otherwise it is untouched.  The Boolean is
the contribution to the `updated` flag. -/
def refresh_step (pathExists : String → Bool) (metadata : Metadata) :
    Metadata × Bool :=
  match metadata.path with
  | some p =>
    if !pathExists p then ({ metadata with status := some "missing" }, true)
    else if metadata.status = some "missing" then
      ({ metadata with status := some "installed" }, true)
    else (metadata, false)
  | none => (metadata, false)

/-- The registry as mutated in memory by `refresh_registry`. -/
def refresh_result (pathExists : String → Bool) (registry : Registry) :
    Registry :=
  registry.map (fun nm => (nm.1, (refresh_step pathExists nm.2).1))

/-- `PluginManager.refresh_registry()`: walks the registry applying
`refresh_step`, and calls `_save_registry` exactly when the internal
`updated` flag was set.  The Python function returns `None`; the first
component is that return value, the second the `_save_registry` trace. -/
def refresh_registry (pathExists : String → Bool) (registry : Registry) :
    Unit × List Registry :=
  let stepped := registry.map (fun nm => (nm.1, refresh_step pathExists nm.2))
  let updated := stepped.any (fun nmb => nmb.2.2)
  ((),
   if updated then [stepped.map (fun nmb => (nmb.1, nmb.2.1))] else [])

/-- One row of the output of `PluginManager.list_plugins`. -/
structure PluginInfo where
  name : String
  source : String
  status : String
  version : Option String := none
  path : Option String := none
deriving Repr, DecidableEq

/-- The per-descriptor display record built inside
`PluginManager.list_plugins`: defaults `unknown` for a missing source or
status, copies version and path when present, and overrides the displayed
status with `missing` when the recorded path no longer exists.  A fresh
record is built; the stored metadata is not touched. -/
def display_info (pathExists : String → Bool) (nm : String × Metadata) :
    PluginInfo :=
  let metadata := nm.2
  let base : PluginInfo :=
    { name := nm.1,
      source := (metadata.source).getD "unknown",
      status := (metadata.status).getD "unknown",
      version := metadata.version,
      path := metadata.path }
  match metadata.path with
  | some p => if !pathExists p then { base with status := "missing" } else base
  | none => base

/-- `PluginManager.list_plugins()`: maps `display_info` over the registry
in order.  The function reads the registry and never calls
`_save_registry`; the (empty) save trace is the second component. -/
def list_plugins (pathExists : String → Bool) (registry : Registry) :
    List PluginInfo × List Registry :=
  (registry.map (display_info pathExists), [])

/-- The displayed status `list_plugins` reports for a given name. -/
def listed_status (infos : List PluginInfo) (name : String) : Option String :=
  (infos.find? (fun i => i.name = name)).map (fun i => i.status)

end PluginManager

namespace PluginLoader

/-- Shapes the loader's registry JSON can take: the current flat
`name -> metadata` map, or the legacy wrapper
`{"plugins": {...}, "version": "..."}` (distinguished in the source by
the presence of the `plugins` key). -/
inductive RegJson where
  | flat (entries : Registry)
  | wrapper (plugins : List (String × Metadata)) (version : String)
deriving Repr, DecidableEq

/-- State of the loader's registry file as `PluginLoader._load_registry`
can observe it. -/
inductive LoaderFileState where
  | absent
  | unparsable
  | parsed (content : RegJson)
deriving Repr, DecidableEq

/-- `PluginLoader._load_registry`: a missing file yields the fresh
`{"plugins": {}, "version": "1.0"}` registry and saves it immediately; a
file that fails to parse is caught by the blanket handler, a warning is
printed and the same fresh registry is used in memory without touching
the file.  The second component is the trace of `_save_registry` calls. -/
def _load_registry : LoaderFileState → RegJson × List RegJson
  | LoaderFileState.absent =>
      (RegJson.wrapper [] "1.0", [RegJson.wrapper [] "1.0"])
  | LoaderFileState.unparsable => (RegJson.wrapper [] "1.0", [])
  | LoaderFileState.parsed content => (content, [])

/-- The migration loop in `PluginLoader._update_registry` applied to a
legacy wrapper's plugin map: every entry is rewritten to a flat record
with source `local`, the conventional path, the old version (default
`1.0.0`) and status `installed`. -/
def migrate_wrapper (plugins : List (String × Metadata)) : Registry :=
  plugins.map (fun ni =>
    (ni.1, ({ source := some "local",
              path := some ("onecode/plugins/" ++ ni.1),
              version := some ((ni.2.version).getD "1.0.0"),
              status := some "installed" } : Metadata)))

/-- The flat plugin map a loader registry denotes, reading the legacy
wrapper through its migration. -/
def regJsonPlugins : RegJson → Registry
  | RegJson.flat entries => entries
  | RegJson.wrapper plugins _ => migrate_wrapper plugins

/-- One result of `self.plugins_dir.iterdir()`: an entry's name, whether
it is a directory, and the file names it directly contains (for the
`(item / '__init__.py').exists()` test). -/
structure DirEntry where
  name : String
  isDir : Bool
  files : List String
deriving Repr, DecidableEq

/-- `PluginLoader.discover_plugins`: nothing when the plugins directory
does not exist; otherwise the names, in iteration order, of the entries
that are directories, do not start with an underscore, are not
`__pycache__`, and contain an `__init__.py` file. -/
def discover_plugins (rootExists : Bool) (entries : List DirEntry) :
    List String :=
  if !rootExists then []
  else (entries.filter (fun item =>
    item.isDir && !(strStarts item.name "_") &&
    item.name != "__pycache__" &&
    item.files.contains "__init__.py")).map (fun item => item.name)

/-- A live plugin instance as `load_plugin` produces it (the attributes
the loader reads from it). -/
structure PluginInst where
  name : String
  version : String
deriving Repr, DecidableEq

/-- Result of calling `initialize()` on a freshly constructed plugin:
`True`, a falsy value, or a raised exception (the last two both leave the
plugin unregistered; the exception is caught by the blanket handler). -/
inductive InitOutcome where
  | ok
  | notOk
  | raises
deriving Repr, DecidableEq

/-- The external world `load_plugin` consults, per plugin directory name:
directory existence, presence of `plugin.py`, whether
`spec_from_file_location` yields a usable spec, whether `exec_module`
succeeds, the first `BasePlugin` subclass found in the module (as the
instance its nullary constructor builds), and the `initialize()`
outcome. -/
structure LoaderEnv where
  rootExists : Bool
  rootEntries : List DirEntry
  dirExists : String → Bool
  moduleFileExists : String → Bool
  specOk : String → Bool
  importOk : String → Bool
  foundClass : String → Option PluginInst
  initResult : String → InitOutcome

/-- Mutable state of a `PluginLoader` instance: the `loaded_plugins`
dict, the in-memory registry, the trace of `_save_registry` calls, and —
for auditing the lifecycle — how many times `initialize()` has been
invoked per plugin directory name. -/
structure LoaderState where
  loaded_plugins : List (String × PluginInst)
  registry : RegJson
  saves : List RegJson
  initCalls : String → Nat

/-- The state a fresh loader starts from when its registry file is
absent: empty plugin map, fresh wrapper registry, no initializations
yet. -/
def emptyLoaderState : LoaderState :=
  { loaded_plugins := [], registry := RegJson.wrapper [] "1.0",
    saves := [], initCalls := fun _ => 0 }

/-- `PluginLoader._update_registry`: on the flat shape, an existing entry
lacking a `source` gets source/path/status defaults and an absent entry
is added with the plugin's version; on the legacy wrapper shape the whole
registry is rebuilt from the wrapped map via the migration (the source's
migration loop iterates only the old entries). -/
def _update_registry (plugin_name : String) (plugin : PluginInst)
    (registry : RegJson) : RegJson :=
  match registry with
  | RegJson.flat entries =>
    match lookup entries plugin_name with
    | some info =>
      if info.source = none then
        RegJson.flat (upsert entries plugin_name
          { info with
              source := some "local",
              path := some ("onecode/plugins/" ++ plugin_name),
              status := some "installed" })
      else RegJson.flat entries
    | none =>
      RegJson.flat (upsert entries plugin_name
        { source := some "local",
          path := some ("onecode/plugins/" ++ plugin_name),
          version := some plugin.version, status := some "installed" })
  | RegJson.wrapper plugins _ => RegJson.flat (migrate_wrapper plugins)

/-- Bump the initialization counter of one plugin name. -/
def bumpInit (f : String → Nat) (name : String) : String → Nat :=
  fun n => if n = name then f n + 1 else f n

/-- The pure outcome of `PluginLoader.load_plugin` for one candidate:
`none` exactly when any step fails (missing directory, missing
`plugin.py`, unusable spec, import error, no conforming class, falsy or
raising `initialize()`) — every exception is caught by the blanket
handler and turned into `None`. -/
def load_result (env : LoaderEnv) (plugin_name : String) :
    Option PluginInst :=
  if !env.dirExists plugin_name then none
  else if !env.moduleFileExists plugin_name then none
  else if !env.specOk plugin_name then none
  else if !env.importOk plugin_name then none
  else
    match env.foundClass plugin_name with
    | none => none
    | some inst =>
      match env.initResult plugin_name with
      | InitOutcome.ok => some inst
      | _ => none

/-- Whether `load_plugin` reaches the point of constructing the class and
calling `initialize()` on it. -/
def reachesInit (env : LoaderEnv) (plugin_name : String) : Bool :=
  env.dirExists plugin_name && env.moduleFileExists plugin_name &&
  env.specOk plugin_name && env.importOk plugin_name &&
  (env.foundClass plugin_name).isSome

/-- `PluginLoader.load_plugin(plugin_name)` with its state effects: on
success the instance is recorded in `loaded_plugins`, the registry is
updated and saved; on any failure the return value is `None` and neither
the plugin map nor the registry change (the initialization counter still
advances whenever `initialize()` was actually reached). -/
def load_plugin (env : LoaderEnv) (st : LoaderState) (plugin_name : String) :
    Option PluginInst × LoaderState :=
  if !env.dirExists plugin_name then (none, st)
  else if !env.moduleFileExists plugin_name then (none, st)
  else if !env.specOk plugin_name then (none, st)
  else if !env.importOk plugin_name then (none, st)
  else
    match env.foundClass plugin_name with
    | none => (none, st)
    | some inst =>
      match env.initResult plugin_name with
      | InitOutcome.ok =>
        let reg1 := _update_registry plugin_name inst st.registry
        (some inst,
         { loaded_plugins := upsert st.loaded_plugins plugin_name inst,
           registry := reg1,
           saves := st.saves ++ [reg1],
           initCalls := bumpInit st.initCalls plugin_name })
      | _ => (none, { st with initCalls := bumpInit st.initCalls plugin_name })

/-- The loop body of `PluginLoader.load_all_plugins` folded over a list
of discovered candidate names: a name already present in
`loaded_plugins` is skipped, every other name goes through
`load_plugin`. -/
def load_all_from (env : LoaderEnv) (names : List String)
    (st : LoaderState) : LoaderState :=
  names.foldl (fun acc plugin_name =>
    if (lookup acc.loaded_plugins plugin_name).isSome then acc
    else (load_plugin env acc plugin_name).2) st

/-- `PluginLoader.load_all_plugins()`: discovers the candidates and runs
the load loop, then returns a copy of the `loaded_plugins` map together
with the final state.  Per-candidate failures only skip that candidate;
the bulk call itself always returns the map. -/
def load_all_plugins (env : LoaderEnv) (st : LoaderState) :
    List (String × PluginInst) × LoaderState :=
  let final := load_all_from env (discover_plugins env.rootExists env.rootEntries) st
  (final.loaded_plugins, final)

end PluginLoader

/-! Helper lemmas about the dict embedding. -/

theorem lookup_nil {α : Type} (n : String) :
    lookup ([] : List (String × α)) n = none := rfl

theorem lookup_cons {α : Type} (k : String) (v : α) (l : List (String × α))
    (n : String) :
    lookup ((k, v) :: l) n = if k = n then some v else lookup l n := rfl

theorem lookup_upsert {α : Type} (l : List (String × α)) (k : String) (v : α)
    (n : String) :
    lookup (upsert l k v) n = if k = n then some v else lookup l n := by
  induction l with
  | nil => simp [upsert, lookup]
  | cons hd tl ih =>
    obtain ⟨hk, hv⟩ := hd
    by_cases h1 : hk = k
    · subst h1
      by_cases h2 : hk = n <;> simp [upsert, lookup, h2]
    · by_cases h2 : hk = n
      · subst h2
        have hkn : ¬ k = hk := fun hh => h1 hh.symm
        simp [upsert, lookup, h1, hkn]
      · simp [upsert, lookup, h1, h2, ih]

theorem lookup_mem {α : Type} (l : List (String × α)) (n : String) (v : α)
    (h : lookup l n = some v) : (n, v) ∈ l := by
  induction l with
  | nil => simp [lookup] at h
  | cons hd tl ih =>
    obtain ⟨hk, hv⟩ := hd
    by_cases h1 : hk = n
    · subst h1
      simp [lookup] at h
      simp [h]
    · simp [lookup, h1] at h
      exact List.mem_cons_of_mem _ (ih h)

theorem lookup_map_val {α β : Type} (f : α → β) (l : List (String × α))
    (n : String) :
    lookup (l.map (fun p => (p.1, f p.2))) n = (lookup l n).map f := by
  induction l with
  | nil => simp [lookup]
  | cons hd tl ih =>
    by_cases h1 : hd.1 = n <;> simp [lookup, h1, ih]

/-! Helper lemmas about the loader's load loop. -/

theorem load_plugin_fst (env : PluginLoader.LoaderEnv)
    (st : PluginLoader.LoaderState) (n : String) :
    (PluginLoader.load_plugin env st n).1 = PluginLoader.load_result env n := by
  unfold PluginLoader.load_plugin PluginLoader.load_result
  repeat' first
  | rfl
  | split

theorem load_plugin_loaded (env : PluginLoader.LoaderEnv)
    (st : PluginLoader.LoaderState) (n : String) :
    (PluginLoader.load_plugin env st n).2.loaded_plugins =
      match PluginLoader.load_result env n with
      | some p => upsert st.loaded_plugins n p
      | none => st.loaded_plugins := by
  unfold PluginLoader.load_plugin PluginLoader.load_result
  repeat' first
  | rfl
  | split

theorem load_plugin_initCalls (env : PluginLoader.LoaderEnv)
    (st : PluginLoader.LoaderState) (n : String) :
    (PluginLoader.load_plugin env st n).2.initCalls =
      if PluginLoader.reachesInit env n then
        PluginLoader.bumpInit st.initCalls n
      else st.initCalls := by
  unfold PluginLoader.load_plugin PluginLoader.reachesInit
  by_cases h1 : env.dirExists n <;>
    by_cases h2 : env.moduleFileExists n <;>
      by_cases h3 : env.specOk n <;>
        by_cases h4 : env.importOk n <;>
          simp [h1, h2, h3, h4]
  cases hc : env.foundClass n with
  | none => simp [hc]
  | some inst =>
    cases hi : env.initResult n <;> simp [hc, hi]

theorem lookup_load_all_from_of_some (env : PluginLoader.LoaderEnv)
    (names : List String) :
    ∀ (st : PluginLoader.LoaderState) (n : String)
      (p : PluginLoader.PluginInst),
      lookup st.loaded_plugins n = some p →
      lookup (PluginLoader.load_all_from env names st).loaded_plugins n
        = some p := by
  induction names with
  | nil => intro st n p h; exact h
  | cons name rest ih =>
    intro st n p h
    show lookup (PluginLoader.load_all_from env rest
      (if (lookup st.loaded_plugins name).isSome then st
       else (PluginLoader.load_plugin env st name).2)).loaded_plugins n = some p
    by_cases hskip : (lookup st.loaded_plugins name).isSome
    · simp only [hskip, if_true]
      exact ih st n p h
    · simp only [hskip, if_false, Bool.false_eq_true]
      apply ih
      rw [load_plugin_loaded]
      cases hres : PluginLoader.load_result env name with
      | none => exact h
      | some q =>
        rw [lookup_upsert]
        have hne : ¬ name = n := by
          intro he
          subst he
          rw [h] at hskip
          simp at hskip
        rw [if_neg hne]
        exact h

theorem lookup_load_all_from_of_none (env : PluginLoader.LoaderEnv)
    (names : List String) :
    ∀ (st : PluginLoader.LoaderState) (n : String),
      lookup st.loaded_plugins n = none →
      lookup (PluginLoader.load_all_from env names st).loaded_plugins n
        = if names.contains n then PluginLoader.load_result env n else none := by
  induction names with
  | nil => intro st n h; simpa [PluginLoader.load_all_from] using h
  | cons name rest ih =>
    intro st n h
    show lookup (PluginLoader.load_all_from env rest
      (if (lookup st.loaded_plugins name).isSome then st
       else (PluginLoader.load_plugin env st name).2)).loaded_plugins n = _
    by_cases hn : name = n
    · subst hn
      have hskip : ¬ (lookup st.loaded_plugins name).isSome := by simp [h]
      simp only [hskip, if_false, Bool.false_eq_true]
      cases hres : PluginLoader.load_result env name with
      | some q =>
        have hq : lookup (PluginLoader.load_plugin env st name).2.loaded_plugins
            name = some q := by
          rw [load_plugin_loaded, hres, lookup_upsert, if_pos rfl]
        rw [lookup_load_all_from_of_some env rest _ name q hq]
        simp [List.contains, hres]
      | none =>
        have hq : lookup (PluginLoader.load_plugin env st name).2.loaded_plugins
            name = none := by
          rw [load_plugin_loaded, hres]
          exact h
        rw [ih _ name hq, hres]
        simp [List.contains]
    · have hcontains : ((name :: rest).contains n) = rest.contains n := by
        simp [List.contains]
        intro he
        exact absurd he.symm hn
      rw [hcontains]
      by_cases hskip : (lookup st.loaded_plugins name).isSome
      · simp only [hskip, if_true]
        exact ih st n h
      · simp only [hskip, if_false, Bool.false_eq_true]
        apply ih
        rw [load_plugin_loaded]
        cases hres : PluginLoader.load_result env name with
        | none => exact h
        | some q => rw [lookup_upsert, if_neg hn]; exact h

theorem load_all_from_loaded_fixed (env : PluginLoader.LoaderEnv)
    (names : List String) :
    ∀ (st : PluginLoader.LoaderState),
      (∀ m, m ∈ names → lookup st.loaded_plugins m = none →
        PluginLoader.load_result env m = none) →
      (PluginLoader.load_all_from env names st).loaded_plugins
        = st.loaded_plugins := by
  induction names with
  | nil => intro st _; rfl
  | cons name rest ih =>
    intro st hfail
    show (PluginLoader.load_all_from env rest
      (if (lookup st.loaded_plugins name).isSome then st
       else (PluginLoader.load_plugin env st name).2)).loaded_plugins = _
    by_cases hskip : (lookup st.loaded_plugins name).isSome
    · simp only [hskip, if_true]
      exact ih st (fun m hm => hfail m (List.mem_cons_of_mem _ hm))
    · simp only [hskip, if_false, Bool.false_eq_true]
      have hnone : lookup st.loaded_plugins name = none := by
        cases hl : lookup st.loaded_plugins name with
        | none => rfl
        | some q => rw [hl] at hskip; simp at hskip
      have hres : PluginLoader.load_result env name = none :=
        hfail name (List.mem_cons_self _ _) hnone
      have hsame : (PluginLoader.load_plugin env st name).2.loaded_plugins
          = st.loaded_plugins := by
        rw [load_plugin_loaded, hres]
      rw [ih _ (fun m hm hm2 => by
        rw [hsame] at hm2
        exact hfail m (List.mem_cons_of_mem _ hm) hm2)]
      exact hsame

theorem load_all_from_initCalls_of_loaded (env : PluginLoader.LoaderEnv)
    (names : List String) :
    ∀ (st : PluginLoader.LoaderState) (n : String),
      (lookup st.loaded_plugins n).isSome →
      (PluginLoader.load_all_from env names st).initCalls n
        = st.initCalls n := by
  induction names with
  | nil => intro st n _; rfl
  | cons name rest ih =>
    intro st n hm
    show (PluginLoader.load_all_from env rest
      (if (lookup st.loaded_plugins name).isSome then st
       else (PluginLoader.load_plugin env st name).2)).initCalls n = _
    by_cases hskip : (lookup st.loaded_plugins name).isSome
    · simp only [hskip, if_true]
      exact ih st n hm
    · simp only [hskip, if_false, Bool.false_eq_true]
      have hne : ¬ n = name := by
        intro he
        subst he
        exact hskip hm
      obtain ⟨p, hp⟩ := Option.isSome_iff_exists.mp hm
      have hsome : lookup (PluginLoader.load_plugin env st name).2.loaded_plugins
          n = some p := by
        rw [load_plugin_loaded]
        cases hres : PluginLoader.load_result env name with
        | none => exact hp
        | some q => rw [lookup_upsert, if_neg (fun hh => hne hh.symm)]; exact hp
      have hcnt : (PluginLoader.load_plugin env st name).2.initCalls n
          = st.initCalls n := by
        rw [load_plugin_initCalls]
        by_cases hri : PluginLoader.reachesInit env name
        · simp [hri, PluginLoader.bumpInit, hne]
        · simp [hri]
      rw [ih _ n (by simp [hsome]), hcnt]

/-! Claim theorems. -/

/-- C1 (counterexample): the spec says existence on disk is checked
before the shorthand-remote pattern, so `classify("user/repo")` should be
`Local` whenever a local path named `user/repo` exists.  In the code the
shorthand test comes first: with a filesystem on which every path exists
(`fun _ => true`), `_detect_source_type "user/repo"` is still `github`
(Remote), not `local`. -/
theorem C1_counterexample :
    PluginManager._detect_source_type (fun _ => true) "user/repo" = "github" ∧
    PluginManager._detect_source_type (fun _ => true) "user/repo" ≠ "local" := by
  constructor
  · rfl
  · decide

/-- C1 (amended): `_detect_source_type` checks the shorthand-remote
pattern before existence on disk: every source containing a slash and not
starting with a dot is classified `github`, for every filesystem — in
particular `classify("user/repo")` is Remote regardless of whether a
local path named `user/repo` exists. -/
theorem C1_shorthand_beats_existence (pathExists : String → Bool)
    (source : String) (h1 : strContains source '/' = true)
    (h2 : strStarts source "." = false) :
    PluginManager._detect_source_type pathExists source = "github" := by
  unfold PluginManager._detect_source_type
  by_cases hh : (strStarts source "http://" || strStarts source "https://") = true
  · rw [if_pos hh]
  · rw [if_neg hh]
    have hcond : (strContains source '/' && !(strStarts source ".")) = true := by
      rw [h1, h2]; rfl
    rw [if_pos hcond]

/-- C1 (witness): the amended theorem applied at `"user/repo"` on a
filesystem where the path exists. -/
theorem C1_shorthand_beats_existence_witness :
    (strContains "user/repo" '/' = true) ∧
    (strStarts "user/repo" "." = false) ∧
    PluginManager._detect_source_type (fun _ => true) "user/repo" = "github" :=
  ⟨by decide, by decide,
   C1_shorthand_beats_existence (fun _ => true) "user/repo"
     (by decide) (by decide)⟩

/-- A trivial effect environment for exercising `remove` at concrete
inputs: every subprocess succeeds and no path exists. -/
def removeEnvW : PluginManager.RemoveEnv :=
  { pipUninstall := fun _ => Except.ok (), pathExists := fun _ => false,
    rmtree := fun _ => Except.ok () }

/-- A concrete locally-installed descriptor. -/
def metaW : Metadata :=
  { source := some "local", path := some "onecode/plugins/sample",
    status := some "installed" }

/-- A registry holding exactly the plugin `sample`. -/
def regW : Registry := [("sample", metaW)]

/-- C2 (counterexample): the spec says `remove(name, confirmed=false)`
fails with `ConfirmationRequired` regardless of whether `name` exists.
In the code the not-installed check runs first: removing the absent name
`ghost` without confirmation fails with `notInstalled`, not with
`confirmationRequired`. -/
theorem C2_counterexample :
    (PluginManager.remove removeEnvW [] "ghost" false).1
      = Except.error (PluginManager.RemoveError.notInstalled "ghost") ∧
    (PluginManager.remove removeEnvW [] "ghost" false).1
      ≠ Except.error PluginManager.RemoveError.confirmationRequired := by
  constructor
  · rfl
  · intro h
    rw [show (PluginManager.remove removeEnvW [] "ghost" false).1
        = Except.error (PluginManager.RemoveError.notInstalled "ghost") from rfl] at h
    simp at h

/-- C2 (amended): `remove` checks installation before confirmation: for
an unregistered name it fails with `notInstalled` whatever `confirm` is,
and `confirmationRequired` is raised exactly for a registered name
without confirmation.  Either failure performs no registry save. -/
theorem C2_not_installed_checked_first (env : PluginManager.RemoveEnv)
    (reg : Registry) (name : String) (confirm : Bool) :
    (lookup reg name = none →
      PluginManager.remove env reg name confirm
        = (Except.error (PluginManager.RemoveError.notInstalled name), [])) ∧
    (∀ m, lookup reg name = some m → confirm = false →
      PluginManager.remove env reg name confirm
        = (Except.error PluginManager.RemoveError.confirmationRequired, [])) := by
  constructor
  · intro h
    simp [PluginManager.remove, h]
  · intro m hm hc
    simp [PluginManager.remove, hm, hc]

/-- C2 (witness): the amended theorem applied to the empty registry with
name `ghost`, and to `regW` with the registered name `sample` without
confirmation. -/
theorem C2_not_installed_checked_first_witness :
    (lookup ([] : Registry) "ghost" = none ∧
     PluginManager.remove removeEnvW [] "ghost" false
       = (Except.error (PluginManager.RemoveError.notInstalled "ghost"), [])) ∧
    (lookup regW "sample" = some metaW ∧
     PluginManager.remove removeEnvW regW "sample" false
       = (Except.error PluginManager.RemoveError.confirmationRequired, [])) :=
  ⟨⟨rfl, (C2_not_installed_checked_first removeEnvW [] "ghost" false).1 rfl⟩,
   ⟨rfl, (C2_not_installed_checked_first removeEnvW regW "sample" false).2
      metaW rfl rfl⟩⟩

/-- C3 (counterexample): the spec says `save()` is atomic
(write-to-temp-then-rename or equivalent) so an interrupted save never
corrupts the registry file.  The code's `_save_registry` opens the
registry file itself with mode `w` and writes into it: interrupting after
the truncating open (prefix of length 1 of its operations) leaves the
file holding `""`, which is neither the old content `"Y"` nor the new
serialization `"X"`. -/
theorem C3_counterexample : ¬ PluginManager.saveNeverCorrupts "X" := by
  intro h
  have h2 := h (fun _ => some "Y") 1
  simp [PluginManager.saveNeverCorrupts, PluginManager._save_registry_ops,
        PluginManager.applyOps, PluginManager.applyOp] at h2

/-- C3 (amended): `_save_registry` writes the serialization directly into
the registry file with a truncating open and no temporary file or rename:
after the first of its operations the registry file is empty, and only
after all of them does it hold the new serialization — so a crash
mid-write can leave the file corrupted (empty), while a completed save
stores exactly the serialized registry. -/
theorem C3_save_truncates_in_place (fs : String → Option String)
    (data : String) :
    PluginManager.applyOps fs ((PluginManager._save_registry_ops data).take 1)
      PluginManager.registry_file = some "" ∧
    PluginManager.applyOps fs (PluginManager._save_registry_ops data)
      PluginManager.registry_file = some data := by
  constructor
  · simp [PluginManager.applyOps, PluginManager._save_registry_ops,
          PluginManager.applyOp]
  · simp [PluginManager.applyOps, PluginManager._save_registry_ops,
          PluginManager.applyOp]

/-- C8: loading the registry never fails.  The manager maps an absent or
unparsable file to the empty registry, and `_ensure_registry` persists an
empty registry file when none exists; the loader maps an absent file to
the fresh wrapper registry (persisting it immediately) and an unparsable
file to the same fresh wrapper in memory without writing, and that
wrapper denotes the empty plugin map — in each case the result is
equivalent to an empty registry. -/
theorem C8_load_registry_never_fails :
    (PluginManager._load_registry PluginManager.FileState.absent = [] ∧
     PluginManager._load_registry PluginManager.FileState.unparsable = [] ∧
     PluginManager._ensure_registry PluginManager.FileState.absent
       = PluginManager.FileState.parsed []) ∧
    ((PluginLoader._load_registry PluginLoader.LoaderFileState.absent).1
       = PluginLoader.RegJson.wrapper [] "1.0" ∧
     (PluginLoader._load_registry PluginLoader.LoaderFileState.absent).2
       = [PluginLoader.RegJson.wrapper [] "1.0"] ∧
     (PluginLoader._load_registry PluginLoader.LoaderFileState.unparsable).1
       = PluginLoader.RegJson.wrapper [] "1.0" ∧
     (PluginLoader._load_registry PluginLoader.LoaderFileState.unparsable).2
       = [] ∧
     PluginLoader.regJsonPlugins (PluginLoader.RegJson.wrapper [] "1.0")
       = []) :=
  ⟨⟨rfl, rfl, rfl⟩, rfl, rfl, rfl, rfl, rfl⟩

/-- C4: installing a source whose derived plugin name is already
registered fails with `alreadyInstalled` when `force` is false and
performs no registry save; more generally every failing `install` call
has an empty `_save_registry` trace, so a failed install leaves the
name-to-descriptor mapping and the registry file exactly as they were. -/
theorem C4_failed_install_writes_nothing (env : PluginManager.InstallEnv)
    (reg : Registry) (source : String) :
    ((lookup reg (PluginManager.install_name env source)).isSome = true →
      PluginManager.install env reg source false
        = (Except.error (PluginManager.InstallError.alreadyInstalled
            (PluginManager.install_name env source)), [])) ∧
    (∀ (force : Bool) (e : PluginManager.InstallError),
      (PluginManager.install env reg source force).1 = Except.error e →
      (PluginManager.install env reg source force).2 = []) := by
  constructor
  · intro h
    simp only [PluginManager.install_name] at h
    simp only [PluginManager.install, Bool.not_false, Bool.and_true]
    rw [if_pos h]
    rfl
  · intro force e h
    simp only [PluginManager.install] at h ⊢
    by_cases hc : ((lookup reg (PluginManager.derive_plugin_name
        (PluginManager._detect_source_type env.pathExists source)
        source)).isSome && !force) = true
    · rw [if_pos hc]
    · rw [if_neg hc] at h ⊢
      cases hacq : (if PluginManager._detect_source_type env.pathExists source = "pypi"
          then PluginManager._install_from_pypi env source
          else if PluginManager._detect_source_type env.pathExists source = "github"
          then PluginManager._install_from_github env source
          else PluginManager._install_from_local env source) with
      | error msg => rfl
      | ok md =>
        rw [hacq] at h
        simp at h

/-- An install environment in which every subprocess succeeds and no
path exists, for exercising `install` at concrete inputs. -/
def installEnvW : PluginManager.InstallEnv :=
  { pathExists := fun _ => false, resolve := fun s => s,
    pipInstall := fun _ => Except.ok (), pipVersion := fun _ => none,
    gitClone := fun _ => Except.ok (), copyTree := fun _ _ => Except.ok (),
    validate := fun _ => true }

/-- C4 (witness): the theorem applied to a registry already holding
`mypkg` — re-installing it without `force` fails with `alreadyInstalled`
and saves nothing. -/
theorem C4_failed_install_writes_nothing_witness :
    (lookup [("mypkg", metaW)]
        (PluginManager.install_name installEnvW "mypkg")).isSome = true ∧
    PluginManager.install installEnvW [("mypkg", metaW)] "mypkg" false
      = (Except.error (PluginManager.InstallError.alreadyInstalled "mypkg"),
         []) :=
  ⟨rfl,
   (C4_failed_install_writes_nothing installEnvW [("mypkg", metaW)]
      "mypkg").1 rfl⟩

/-- A registry with one locally-installed record whose path is gone, so a
refresh against an all-missing filesystem changes it. -/
def regC5 : Registry := [("p", { path := some "x", status := some "installed" })]

/-- C5 (counterexample): the spec says `refresh()` returns whether any
record changed.  The Python function returns `None`: its return value on
a run that changes a record (and saves) is identical to its return value
on a run that changes nothing (and does not save), so the return value
cannot convey whether any record changed. -/
theorem C5_counterexample :
    (PluginManager.refresh_registry (fun _ => false) regC5).1
      = (PluginManager.refresh_registry (fun _ => true) ([] : Registry)).1 ∧
    (PluginManager.refresh_registry (fun _ => false) regC5).2 ≠ [] ∧
    (PluginManager.refresh_registry (fun _ => true) ([] : Registry)).2 = [] := by
  refine ⟨rfl, ?_, rfl⟩
  decide

/-- C5 (amended): `refresh_registry` re-checks existence for every
descriptor carrying a path — a descriptor whose path is deleted flips to
`missing`, and refreshing after the path reappears flips it back to
`installed` — and it persists the updated registry when its internal
change flag is set, but it returns `None`: the change information is not
returned to the caller. -/
theorem C5_refresh_statuses_returns_none (pe pe2 : String → Bool)
    (reg : Registry) (n : String) (m : Metadata) (p : String)
    (hn : lookup reg n = some m) (hp : m.path = some p)
    (hdel : pe p = false) (hre : pe2 p = true) :
    lookup (PluginManager.refresh_result pe reg) n
      = some { m with status := some "missing" } ∧
    lookup (PluginManager.refresh_result pe2
        (PluginManager.refresh_result pe reg)) n
      = some { m with status := some "installed" } ∧
    (PluginManager.refresh_registry pe reg).2
      = [PluginManager.refresh_result pe reg] ∧
    (PluginManager.refresh_registry pe reg).1 = () := by
  have hstep : PluginManager.refresh_step pe m
      = ({ m with status := some "missing" }, true) := by
    simp [PluginManager.refresh_step, hp, hdel]
  have l1 : lookup (PluginManager.refresh_result pe reg) n
      = (lookup reg n).map (fun mm => (PluginManager.refresh_step pe mm).1) :=
    lookup_map_val (fun mm => (PluginManager.refresh_step pe mm).1) reg n
  have g1 : lookup (PluginManager.refresh_result pe reg) n
      = some { m with status := some "missing" } := by
    rw [l1, hn, Option.map_some', hstep]
  refine ⟨g1, ?_, ?_, rfl⟩
  · have l2 : lookup (PluginManager.refresh_result pe2
        (PluginManager.refresh_result pe reg)) n
        = (lookup (PluginManager.refresh_result pe reg) n).map
            (fun mm => (PluginManager.refresh_step pe2 mm).1) :=
      lookup_map_val (fun mm => (PluginManager.refresh_step pe2 mm).1) _ n
    rw [l2, g1, Option.map_some']
    have hstep2 : PluginManager.refresh_step pe2 { m with status := some "missing" }
        = ({ m with status := some "installed" }, true) := by
      simp [PluginManager.refresh_step, hp, hre]
    rw [hstep2]
  · have hmem : (n, m) ∈ reg := lookup_mem reg n m hn
    have hany : (reg.map (fun nm =>
        (nm.1, PluginManager.refresh_step pe nm.2))).any
          (fun nmb => nmb.2.2) = true := by
      apply List.any_eq_true.mpr
      refine ⟨(n, PluginManager.refresh_step pe m),
        List.mem_map_of_mem _ hmem, ?_⟩
      rw [hstep]
    show (PluginManager.refresh_registry pe reg).2 = _
    simp only [PluginManager.refresh_registry]
    rw [if_pos hany, List.map_map]
    rfl

/-- C5 (witness): the amended theorem applied at the concrete registry
`regC5` and the all-missing / all-present filesystems. -/
theorem C5_refresh_statuses_returns_none_witness :
    (lookup regC5 "p"
       = some { path := some "x", status := some "installed" }) ∧
    lookup (PluginManager.refresh_result (fun _ => false) regC5) "p"
      = some { path := some "x", status := some "missing" } ∧
    lookup (PluginManager.refresh_result (fun _ => true)
        (PluginManager.refresh_result (fun _ => false) regC5)) "p"
      = some { path := some "x", status := some "installed" } :=
  ⟨rfl,
   (C5_refresh_statuses_returns_none (fun _ => false) (fun _ => true) regC5
      "p" { path := some "x", status := some "installed" } "x"
      rfl rfl rfl rfl).1,
   (C5_refresh_statuses_returns_none (fun _ => false) (fun _ => true) regC5
      "p" { path := some "x", status := some "installed" } "x"
      rfl rfl rfl rfl).2.1⟩

/-- C6 (counterexample): the spec says a discovery candidate must contain
the recognized entry-point file `plugin.<ext>` (here `plugin.py`), and a
directory lacking it is never returned.  The code's discovery checks for
`__init__.py` instead: a directory holding only `__init__.py` (and no
`plugin.py`) is returned as a candidate. -/
theorem C6_counterexample :
    PluginLoader.discover_plugins true
      [{ name := "sample", isDir := true, files := ["__init__.py"] }]
      = ["sample"] ∧
    ¬ ("plugin.py" ∈ (["__init__.py"] : List String)) := by
  constructor
  · decide
  · decide

/-- C6 (amended): a subdirectory is returned as a candidate iff it is a
directory, its name does not start with an underscore and is not
`__pycache__`, and it contains the package marker `__init__.py` — not the
loader's entry-point file `plugin.py`, which is only required later by
`load_plugin`. -/
theorem C6_candidate_iff_package_marker (rootExists : Bool)
    (entries : List PluginLoader.DirEntry) (n : String) :
    n ∈ PluginLoader.discover_plugins rootExists entries ↔
      rootExists = true ∧ ∃ item, item ∈ entries ∧ item.name = n ∧
        item.isDir = true ∧ strStarts item.name "_" = false ∧
        item.name ≠ "__pycache__" ∧
        item.files.contains "__init__.py" = true := by
  cases rootExists with
  | false => simp [PluginLoader.discover_plugins]
  | true =>
    simp only [PluginLoader.discover_plugins, Bool.not_true, Bool.false_eq_true,
      if_false, List.mem_map, List.mem_filter, true_and]
    constructor
    · rintro ⟨item, ⟨hmem, hcond⟩, hname⟩
      simp only [Bool.and_eq_true, Bool.not_eq_eq_eq_not, Bool.not_true,
        bne_iff_ne, ne_eq] at hcond
      exact ⟨item, hmem, hname, hcond.1.1.1, hcond.1.1.2, hcond.1.2, hcond.2⟩
    · rintro ⟨item, hmem, hname, hdir, hund, hcache, hinit⟩
      refine ⟨item, ⟨hmem, ?_⟩, hname⟩
      have hinitm : "__init__.py" ∈ item.files := by simpa using hinit
      simp [hdir, hund, hcache, hinitm]

/-- C7: the bulk load never fails and returns exactly the map of
successfully activated plugins: starting from a fresh loader, the final
`loaded_plugins` map binds a name iff it was discovered and its
individual `load_plugin` run succeeded — every per-candidate failure
(missing directory or `plugin.py`, unusable spec, import error, no
conforming class, falsy or raising `initialize`) only leaves that one
name out, with no effect on the other candidates. -/
theorem C7_load_all_returns_success_map (env : PluginLoader.LoaderEnv)
    (n : String) :
    lookup (PluginLoader.load_all_plugins env PluginLoader.emptyLoaderState).1 n
      = if (PluginLoader.discover_plugins env.rootExists
            env.rootEntries).contains n
        then PluginLoader.load_result env n else none :=
  lookup_load_all_from_of_none env
    (PluginLoader.discover_plugins env.rootExists env.rootEntries)
    PluginLoader.emptyLoaderState n rfl

/-- A loader world with a single discoverable plugin `alpha` whose module
loads and exposes a conforming class, but whose `initialize()` returns a
falsy value, so every load attempt fails at the initialization step. -/
def envC9 : PluginLoader.LoaderEnv :=
  { rootExists := true,
    rootEntries := [{ name := "alpha", isDir := true, files := ["__init__.py"] }],
    dirExists := fun _ => true,
    moduleFileExists := fun _ => true,
    specOk := fun _ => true,
    importOk := fun _ => true,
    foundClass := fun _ => some { name := "alpha", version := "1.0" },
    initResult := fun _ => PluginLoader.InitOutcome.notOk }

/-- C9 (counterexample): the claim says `initialize()` is invoked at most
once per discovered plugin per loader instance.  A candidate that fails
`initialize()` is never added to `loaded_plugins`, so a second
`load_all_plugins` call retries it: in `envC9` the counter for `alpha`
is 1 after one bulk load and 2 after a second bulk load (the two calls do
return the same — empty — map). -/
theorem C9_counterexample :
    (PluginLoader.load_all_plugins envC9
        PluginLoader.emptyLoaderState).2.initCalls "alpha" = 1 ∧
    (PluginLoader.load_all_plugins envC9
        (PluginLoader.load_all_plugins envC9
          PluginLoader.emptyLoaderState).2).2.initCalls "alpha" = 2 ∧
    (PluginLoader.load_all_plugins envC9
        (PluginLoader.load_all_plugins envC9
          PluginLoader.emptyLoaderState).2).1
      = (PluginLoader.load_all_plugins envC9
          PluginLoader.emptyLoaderState).1 :=
  ⟨rfl, rfl, rfl⟩

/-- C9 (amended): `load_all_plugins` skips every name already present in
`loaded_plugins`, so a second bulk call returns the same map as the first
and never re-initializes a plugin that was successfully activated; a
candidate that failed, however, is retried (its `initialize()` may run
again), which is exactly why the map is unchanged only because the retry
fails the same way. -/
theorem C9_second_load_all_same_map (env : PluginLoader.LoaderEnv)
    (st : PluginLoader.LoaderState) :
    ((PluginLoader.load_all_plugins env
        (PluginLoader.load_all_plugins env st).2).1
      = (PluginLoader.load_all_plugins env st).1) ∧
    (∀ n, (lookup (PluginLoader.load_all_plugins env
        st).2.loaded_plugins n).isSome = true →
      (PluginLoader.load_all_plugins env
        (PluginLoader.load_all_plugins env st).2).2.initCalls n
        = (PluginLoader.load_all_plugins env st).2.initCalls n) := by
  have hfail : ∀ m,
      m ∈ PluginLoader.discover_plugins env.rootExists env.rootEntries →
      lookup (PluginLoader.load_all_from env
        (PluginLoader.discover_plugins env.rootExists env.rootEntries)
        st).loaded_plugins m = none →
      PluginLoader.load_result env m = none := by
    intro m hm hnone
    cases hst : lookup st.loaded_plugins m with
    | some p =>
      rw [lookup_load_all_from_of_some env _ st m p hst] at hnone
      cases hnone
    | none =>
      have h2 := lookup_load_all_from_of_none env
        (PluginLoader.discover_plugins env.rootExists env.rootEntries)
        st m hst
      rw [hnone] at h2
      have hcon : (PluginLoader.discover_plugins env.rootExists
          env.rootEntries).contains m = true := by
        simpa using hm
      rw [if_pos hcon] at h2
      exact h2.symm
  constructor
  · exact load_all_from_loaded_fixed env _ _ hfail
  · intro n hn
    exact load_all_from_initCalls_of_loaded env _ _ n hn

/-- Like `envC9` but with a successful `initialize()`, for the witness. -/
def envC9w : PluginLoader.LoaderEnv :=
  { rootExists := true,
    rootEntries := [{ name := "alpha", isDir := true, files := ["__init__.py"] }],
    dirExists := fun _ => true,
    moduleFileExists := fun _ => true,
    specOk := fun _ => true,
    importOk := fun _ => true,
    foundClass := fun _ => some { name := "alpha", version := "1.0" },
    initResult := fun _ => PluginLoader.InitOutcome.ok }

/-- C9 (witness): the amended theorem applied to a loader world where
`alpha` activates on the first bulk load; the second bulk load leaves its
initialization count untouched. -/
theorem C9_second_load_all_same_map_witness :
    (lookup (PluginLoader.load_all_plugins envC9w
        PluginLoader.emptyLoaderState).2.loaded_plugins "alpha").isSome
      = true ∧
    (PluginLoader.load_all_plugins envC9w
        (PluginLoader.load_all_plugins envC9w
          PluginLoader.emptyLoaderState).2).2.initCalls "alpha"
      = (PluginLoader.load_all_plugins envC9w
          PluginLoader.emptyLoaderState).2.initCalls "alpha" :=
  ⟨rfl,
   (C9_second_load_all_same_map envC9w PluginLoader.emptyLoaderState).2
     "alpha" rfl⟩

theorem display_info_name (pe : String → Bool) (nm : String × Metadata) :
    (PluginManager.display_info pe nm).name = nm.1 := by
  unfold PluginManager.display_info
  cases h : nm.2.path with
  | none => simp [h]
  | some q => by_cases hq : pe q <;> simp [h, hq]

theorem listed_status_cons (infos : List PluginManager.PluginInfo)
    (i : PluginManager.PluginInfo) (n : String) :
    PluginManager.listed_status (i :: infos) n
      = if i.name = n then some i.status
        else PluginManager.listed_status infos n := by
  by_cases h : i.name = n
  · simp [PluginManager.listed_status, List.find?_cons_of_pos, h]
  · simp [PluginManager.listed_status, List.find?_cons_of_neg, h]

theorem listed_status_of_lookup (pe : String → Bool) (reg : Registry)
    (n : String) (m : Metadata) (h : lookup reg n = some m) :
    PluginManager.listed_status (PluginManager.list_plugins pe reg).1 n
      = some (PluginManager.display_info pe (n, m)).status := by
  induction reg with
  | nil => simp [lookup] at h
  | cons hd tl ih =>
    obtain ⟨k, v⟩ := hd
    have hcons : (PluginManager.list_plugins pe ((k, v) :: tl)).1
        = PluginManager.display_info pe (k, v)
            :: (PluginManager.list_plugins pe tl).1 := rfl
    rw [hcons, listed_status_cons]
    simp only [display_info_name]
    by_cases hk : k = n
    · rw [if_pos hk]
      subst hk
      rw [lookup_cons, if_pos rfl] at h
      obtain rfl : v = m := by injection h
      rfl
    · rw [if_neg hk]
      rw [lookup_cons, if_neg hk] at h
      exact ih h

/-- C10: `list_plugins` is read-only with respect to the persisted
registry: its `_save_registry` trace is empty, so a registered descriptor
whose directory was deleted keeps status `installed` in the registry even
though the returned list already reports it as `missing`; only
`refresh_registry` (the mutating bulk operation) rewrites the stored
record to `missing`. -/
theorem C10_list_plugins_readonly (pe : String → Bool) (reg : Registry)
    (n : String) (m : Metadata) (p : String)
    (hn : lookup reg n = some m) (hp : m.path = some p)
    (hst : m.status = some "installed") (hgone : pe p = false) :
    (PluginManager.list_plugins pe reg).2 = [] ∧
    PluginManager.listed_status (PluginManager.list_plugins pe reg).1 n
      = some "missing" ∧
    (lookup reg n).bind (fun mm => mm.status) = some "installed" ∧
    lookup (PluginManager.refresh_result pe reg) n
      = some { m with status := some "missing" } := by
  refine ⟨rfl, ?_, ?_, ?_⟩
  · rw [listed_status_of_lookup pe reg n m hn]
    simp [PluginManager.display_info, hp, hgone]
  · rw [hn]
    simpa using hst
  · have l1 : lookup (PluginManager.refresh_result pe reg) n
        = (lookup reg n).map (fun mm => (PluginManager.refresh_step pe mm).1) :=
      lookup_map_val (fun mm => (PluginManager.refresh_step pe mm).1) reg n
    rw [l1, hn, Option.map_some']
    simp [PluginManager.refresh_step, hp, hgone]

/-- C10 (witness): the theorem applied to the concrete registry `regW`
whose single plugin directory has been deleted. -/
theorem C10_list_plugins_readonly_witness :
    (lookup regW "sample" = some metaW ∧
     metaW.path = some "onecode/plugins/sample" ∧
     metaW.status = some "installed") ∧
    (PluginManager.list_plugins (fun _ => false) regW).2 = [] ∧
    PluginManager.listed_status
      (PluginManager.list_plugins (fun _ => false) regW).1 "sample"
      = some "missing" :=
  ⟨⟨rfl, rfl, rfl⟩,
   (C10_list_plugins_readonly (fun _ => false) regW "sample" metaW
      "onecode/plugins/sample" rfl rfl rfl rfl).1,
   (C10_list_plugins_readonly (fun _ => false) regW "sample" metaW
      "onecode/plugins/sample" rfl rfl rfl rfl).2.1⟩

end OneCode
